import Mathlib

set_option autoImplicit false
set_option maxHeartbeats 1000000

/-!
Shallow embedding of the NocoBase Plugin Manager core
(packages/core/server/src/plugin-manager/plugin-manager.ts).

The manager coordinates a persistent plugin record store, an in-memory
instance registry (a JS Map from plugin name to a constructed plugin
object), lifecycle hooks on the plugin objects, application events, and a
local control-socket protocol.  External collaborators (the npm/zip package
resolver, the file system, the JSON codec of the socket, the class loaded
by require) are modelled as an environment of pure functions; plugin hook
bodies are modelled by outcome flags on the loaded class, since the manager
only observes whether a hook completes or throws.

State mutations performed before a throw are kept (the orchestrator does no
rollback), so every operation returns the resulting state, the list of
observable events in order, and an optional error.
-/

namespace PM

/-- The behaviour of a loaded plugin class: the names it requires at enable
time and, for each lifecycle hook, whether a call to it completes or throws.
The manager never inspects a hook body, so an outcome flag per hook is a
faithful abstraction. -/
structure PluginClassDef where
  requiredPlugins : List String := []
  afterAddOk : Bool := true
  installOk : Bool := true
  afterEnableOk : Bool := true
  afterDisableOk : Bool := true
  removeOk : Bool := true
  loadOk : Bool := true
  beforeLoadOk : Bool := true
  deriving Repr, DecidableEq

/-- A constructed plugin instance.  Per the design, the instance is bound to
the record fields name, enabled and builtIn at construction time (they are
passed to the constructor by setPluginInstance and not mutated by the
manager afterwards). -/
structure Plugin where
  cls : PluginClassDef
  name : String
  enabled : Bool
  builtIn : Bool
  deriving Repr, DecidableEq

/-- A persisted plugin record (the applicationPlugins collection row). -/
structure PluginRecord where
  name : String
  appName : String
  version : Option String := none
  registry : Option String := none
  zipUrl : Option String := none
  clientUrl : Option String := none
  enabled : Bool := false
  installed : Bool := false
  builtIn : Bool := false
  isOfficial : Bool := false
  deriving Repr, DecidableEq

/-- A control-channel method name, matching the dispatch table
createByCli / addByCli / enableByCli / disableByCli / removeByCli. -/
inductive CliMethod where
  | create
  | add
  | enable
  | disable
  | remove
  deriving Repr, DecidableEq

/-- A control message: a method plus one plugin name or a list of names,
mirroring the field plugins of type string or string array. -/
structure Msg where
  method : CliMethod
  plugins : Sum String (List String)
  deriving Repr, DecidableEq

/-- Observable events emitted by the manager, in execution order: record
store operations, package resolver calls, lifecycle hook invocations on a
named plugin, application events, CLI dispatches and socket writes.  A hook
event is recorded also when the hook throws (the call was observed). -/
inductive Ev where
  | recCreate (name : String)
  | recUpdateEnabled (name : String) (value : Bool)
  | recUpdateInstalled (name : String)
  | recUpdateVersion (name : String)
  | recDestroy (name : String)
  | pkgDownload (name : String)
  | pkgRemove (name : String)
  | hook (name : String) (hookName : String)
  | emit (eventName : String) (name : String)
  | schemaSync
  | logWarn (text : String)
  | cliCreate (name : String)
  | cliDispatch (m : CliMethod) (name : String)
  | sockSend (msg : Msg)
  deriving Repr, DecidableEq

/-- Errors raised by the lifecycle methods.  The source raises plain Error
values with distinguishing messages; the constructors follow the error
taxonomy of the design.  typeError models the JavaScript TypeError raised
when a property of undefined is read (reading enabled of a required plugin
that is not in the registry). -/
inductive PMError where
  | pluginNotFound (name : String)
  | duplicatePlugin (name : String)
  | requiredPluginNotEnabled (name : String) (required : String)
  | typeError
  | builtInProtected (name : String)
  | invalidPluginExport (name : String)
  | packageResolutionFailure (name : String)
  | localPluginMissing (name : String)
  | hookError (name : String) (hookName : String)
  deriving Repr, DecidableEq

/-- The manager state: the application name, the instance registry (a JS
Map from name to instance, in insertion order) and the persisted record
store.  Static plugins registered by class identity instead of a name are
a degenerate case no claim exercises; the model keys every entry by name. -/
structure PMState where
  appName : String
  plugins : List (String × Plugin)
  store : List PluginRecord
  deriving Repr, DecidableEq

/-- The external collaborators: require of a plugin package (classes),
addOrUpdatePluginByNpm (npmResolve, returning the resolved version or
failing), getNewVersion, getClientStaticUrl and the local package lookup
used by addByCli. -/
structure PMEnv where
  classes : String → Option PluginClassDef
  npmResolve : String → Option String
  newVersion : String → Option String
  clientStaticUrl : String → String
  localPkg : String → Option (String × String)

/-! ### The instance registry (JS Map semantics, keyed by name) -/

/-- Map.get: the value stored under a key. -/
def mapGet : List (String × Plugin) → String → Option Plugin
  | [], _ => none
  | p :: rest, k => if p.1 = k then some p.2 else mapGet rest k

/-- Map.set: replace in place when the key is present (keeping its
insertion position), otherwise append. -/
def mapSet : List (String × Plugin) → String → Plugin → List (String × Plugin)
  | [], k, v => [(k, v)]
  | p :: rest, k, v => if p.1 = k then (k, v) :: rest else p :: mapSet rest k v

/-- Map.delete: drop the entry stored under a key. -/
def mapDelete : List (String × Plugin) → String → List (String × Plugin)
  | [], _ => []
  | p :: rest, k => if p.1 = k then rest else p :: mapDelete rest k

/-! ### The record store (repository calls used by the manager) -/

/-- repository.findOne with filter name and appName. -/
def storeFindOne (s : PMState) (name : String) : Option PluginRecord :=
  s.store.find? (fun r => r.name == name && r.appName == s.appName)

/-- repository.list(appName): the records of this application. -/
def storeList (s : PMState) : List PluginRecord :=
  s.store.filter (fun r => r.appName == s.appName)

/-- repository.create.  The store enforces the unique (name, appName)
constraint, so a duplicate create fails. -/
def storeCreate (s : PMState) (r : PluginRecord) : Option PMState :=
  if (storeFindOne s r.name).isSome then none
  else some { s with store := s.store ++ [r] }

/-- repository.update with filter name and appName, values enabled. -/
def storeSetEnabled (s : PMState) (name : String) (value : Bool) : PMState :=
  { s with
    store := s.store.map (fun r =>
      if r.name = name ∧ r.appName = s.appName then { r with enabled := value } else r) }

/-- repository.update with filter name, builtIn false and appName, values
enabled false (the defensive filter used by disable). -/
def storeSetDisabled (s : PMState) (name : String) : PMState :=
  { s with
    store := s.store.map (fun r =>
      if r.name = name ∧ r.builtIn = false ∧ r.appName = s.appName then
        { r with enabled := false }
      else r) }

/-- repository.update with values version, clientUrl and installed true
(the second step of addByNpm). -/
def storeSetInstalled (s : PMState) (name version clientUrl : String) : PMState :=
  { s with
    store := s.store.map (fun r =>
      if r.name = name ∧ r.appName = s.appName then
        { r with version := some version, clientUrl := some clientUrl, installed := true }
      else r) }

/-- repository.update with values version (the upgrade step). -/
def storeSetVersion (s : PMState) (name version : String) : PMState :=
  { s with
    store := s.store.map (fun r =>
      if r.name = name ∧ r.appName = s.appName then { r with version := some version } else r) }

/-- repository.destroy with filter name, builtIn false and appName. -/
def storeDestroy (s : PMState) (name : String) : PMState :=
  { s with
    store := s.store.filter (fun r =>
      !(r.name == name && r.builtIn == false && r.appName == s.appName)) }

/-! ### Instance construction -/

/-- setDatabasePlugin: require the package by name, then setPluginInstance,
which constructs the instance from name, enabled and builtIn and inserts it
into the registry under the name.  A module that cannot be loaded or does
not export a function is the invalid-export failure. -/
def setDatabasePlugin (env : PMEnv) (s : PMState) (name : String) (enabled builtIn : Bool) :
    PMState × Option Plugin × Option PMError :=
  match env.classes name with
  | none => (s, none, some (PMError.invalidPluginExport name))
  | some cls =>
      let inst : Plugin := { cls := cls, name := name, enabled := enabled, builtIn := builtIn }
      ({ s with plugins := mapSet s.plugins name inst }, some inst, none)

/-! ### Lifecycle operations -/

/-- The required-plugins check of enable, in list order.  A required name
that is registered but disabled raises the dedicated error; a required name
absent from the registry makes the source read the property enabled of
undefined, a TypeError. -/
def checkRequired (s : PMState) (name : String) : List String → Option PMError
  | [] => none
  | r :: rest =>
    match mapGet s.plugins r with
    | none => some PMError.typeError
    | some p =>
        if p.enabled then checkRequired s name rest
        else some (PMError.requiredPluginNotEnabled name r)

/-- The single-plugin load routine: a no-op when the instance enabled flag
is false, otherwise beforeLoadPlugin, the load hook, afterLoadPlugin. -/
def loadOne (inst : Plugin) : List Ev × Option PMError :=
  if inst.enabled then
    if inst.cls.loadOk then
      ([Ev.emit "beforeLoadPlugin" inst.name, Ev.hook inst.name "load",
        Ev.emit "afterLoadPlugin" inst.name], none)
    else
      ([Ev.emit "beforeLoadPlugin" inst.name, Ev.hook inst.name "load"],
       some (PMError.hookError inst.name "load"))
  else ([], none)

/-- enable: fetch the instance, check required plugins, persist enabled
true, then the install hook, the afterEnable hook, the afterEnablePlugin
application event and the load routine.  A throw aborts the remaining steps
and nothing is rolled back. -/
def enable (s : PMState) (name : String) : PMState × List Ev × Option PMError :=
  match mapGet s.plugins name with
  | none => (s, [], some (PMError.pluginNotFound name))
  | some inst =>
    match checkRequired s name inst.cls.requiredPlugins with
    | some e => (s, [], some e)
    | none =>
      let s1 := storeSetEnabled s name true
      if inst.cls.installOk then
        if inst.cls.afterEnableOk then
          let levs := (loadOne inst).1
          let lerr := (loadOne inst).2
          (s1, [Ev.recUpdateEnabled name true, Ev.hook name "install",
                Ev.hook name "afterEnable", Ev.emit "afterEnablePlugin" name] ++ levs, lerr)
        else
          (s1, [Ev.recUpdateEnabled name true, Ev.hook name "install",
                Ev.hook name "afterEnable"], some (PMError.hookError name "afterEnable"))
      else
        (s1, [Ev.recUpdateEnabled name true, Ev.hook name "install"],
         some (PMError.hookError name "install"))

/-- disable: fetch the instance, refuse a builtIn plugin, persist enabled
false (with the defensive builtIn-false filter), then the afterDisable hook
and the afterDisablePlugin event. -/
def disable (s : PMState) (name : String) : PMState × List Ev × Option PMError :=
  match mapGet s.plugins name with
  | none => (s, [], some (PMError.pluginNotFound name))
  | some inst =>
    if inst.builtIn then (s, [], some (PMError.builtInProtected name))
    else
      let s1 := storeSetDisabled s name
      if inst.cls.afterDisableOk then
        (s1, [Ev.recUpdateEnabled name false, Ev.hook name "afterDisable",
              Ev.emit "afterDisablePlugin" name], none)
      else
        (s1, [Ev.recUpdateEnabled name false, Ev.hook name "afterDisable"],
         some (PMError.hookError name "afterDisable"))

/-- remove: fetch the instance, refuse a builtIn plugin, run the remove
hook, destroy the record, delete the registry entry, remove the package
files. -/
def remove (s : PMState) (name : String) : PMState × List Ev × Option PMError :=
  match mapGet s.plugins name with
  | none => (s, [], some (PMError.pluginNotFound name))
  | some inst =>
    if inst.builtIn then (s, [], some (PMError.builtInProtected name))
    else if inst.cls.removeOk then
      let s1 := storeDestroy s name
      let s2 := { s1 with plugins := mapDelete s1.plugins name }
      (s2, [Ev.hook name "remove", Ev.recDestroy name, Ev.pkgRemove name], none)
    else (s, [Ev.hook name "remove"], some (PMError.hookError name "remove"))

/-- The body of loadAll: sequential load over the registry entries in
insertion order, aborting the pass on the first throw. -/
def loadAllGo : List (String × Plugin) → List Ev × Option PMError
  | [] => ([], none)
  | (_, inst) :: rest =>
    match loadOne inst with
    | (evs, some e) => (evs, some e)
    | (evs, none) =>
      let tail := loadAllGo rest
      (evs ++ tail.1, tail.2)

/-- loadAll: sequential load over every registered instance. -/
def loadAll (s : PMState) : List Ev × Option PMError :=
  loadAllGo s.plugins

/-- addByNpm: registry duplicate check, record create with enabled false
and installed false, package download, record update to installed true with
version and client url, instance construction, afterAdd hook. -/
def addByNpm (env : PMEnv) (s : PMState) (name : String) (registry : Option String)
    (builtIn isOfficial : Bool) : PMState × List Ev × Option PMError :=
  if (mapGet s.plugins name).isSome then (s, [], some (PMError.duplicatePlugin name))
  else
    let rec0 : PluginRecord :=
      { name := name, appName := s.appName, registry := registry, enabled := false,
        isOfficial := isOfficial, installed := false, builtIn := builtIn }
    match storeCreate s rec0 with
    | none => (s, [], some (PMError.duplicatePlugin name))
    | some s1 =>
      match env.npmResolve name with
      | none => (s1, [Ev.recCreate name], some (PMError.packageResolutionFailure name))
      | some version =>
        let s2 := storeSetInstalled s1 name version (env.clientStaticUrl name)
        match setDatabasePlugin env s2 name false builtIn with
        | (s3, none, e) =>
          (s3, [Ev.recCreate name, Ev.pkgDownload name, Ev.recUpdateInstalled name], e)
        | (s3, some inst, _) =>
          if inst.cls.afterAddOk then
            (s3, [Ev.recCreate name, Ev.pkgDownload name, Ev.recUpdateInstalled name,
                  Ev.hook name "afterAdd"], none)
          else
            (s3, [Ev.recCreate name, Ev.pkgDownload name, Ev.recUpdateInstalled name,
                  Ev.hook name "afterAdd"], some (PMError.hookError name "afterAdd"))

/-- addByLocalPath.  Reading package.json at the local path is external
file input; the model takes its result, the package name and version,
directly.  Registry duplicate check first, then record create with enabled
false and installed true, instance construction, afterAdd hook. -/
def addByLocalPath (env : PMEnv) (s : PMState) (name version : String) (zipUrl : Option String)
    (builtIn isOfficial : Bool) : PMState × List Ev × Option PMError :=
  if (mapGet s.plugins name).isSome then (s, [], some (PMError.duplicatePlugin name))
  else
    let rec0 : PluginRecord :=
      { name := name, appName := s.appName, zipUrl := zipUrl, builtIn := builtIn,
        isOfficial := isOfficial, clientUrl := some (env.clientStaticUrl name),
        version := some version, registry := none, enabled := false, installed := true }
    match storeCreate s rec0 with
    | none => (s, [], some (PMError.duplicatePlugin name))
    | some s1 =>
      match setDatabasePlugin env s1 name false builtIn with
      | (s2, none, e) => (s2, [Ev.recCreate name], e)
      | (s2, some inst, _) =>
        if inst.cls.afterAddOk then
          (s2, [Ev.recCreate name, Ev.hook name "afterAdd"], none)
        else
          (s2, [Ev.recCreate name, Ev.hook name "afterAdd"],
           some (PMError.hookError name "afterAdd"))

/-- The tail of upgradeByNpm after the optional download: the record update
with values version (an absent new version is an undefined value, which the
store skips, leaving the record unchanged), instance reconstruction from
the previously fetched record, the afterAdd hook, and the load hook when
the fetched record was enabled. -/
def upgradeFinish (env : PMEnv) (s : PMState) (name : String) (rec0 : PluginRecord)
    (newVer : Option String) (evs0 : List Ev) : PMState × List Ev × Option PMError :=
  let s1 := match newVer with
    | some v => storeSetVersion s name v
    | none => s
  let evs := evs0 ++ [Ev.recUpdateVersion name]
  match setDatabasePlugin env s1 name rec0.enabled rec0.builtIn with
  | (s2, none, e) => (s2, evs, e)
  | (s2, some inst, _) =>
    if inst.cls.afterAddOk then
      if rec0.enabled then
        if inst.cls.loadOk then
          (s2, evs ++ [Ev.hook name "afterAdd", Ev.hook name "load"], none)
        else
          (s2, evs ++ [Ev.hook name "afterAdd", Ev.hook name "load"],
           some (PMError.hookError name "load"))
      else (s2, evs ++ [Ev.hook name "afterAdd"], none)
    else (s2, evs ++ [Ev.hook name "afterAdd"], some (PMError.hookError name "afterAdd"))

/-- upgradeByNpm: fetch the record (fail when absent), download the package
only when getNewVersion reports a newer one, then the common upgrade tail. -/
def upgradeByNpm (env : PMEnv) (s : PMState) (name : String) :
    PMState × List Ev × Option PMError :=
  match storeFindOne s name with
  | none => (s, [], some (PMError.pluginNotFound name))
  | some rec0 =>
    match env.newVersion name with
    | some v =>
      match env.npmResolve name with
      | none => (s, [], some (PMError.packageResolutionFailure name))
      | some _ => upgradeFinish env s name rec0 (some v) [Ev.pkgDownload name]
    | none => upgradeFinish env s name rec0 none []

/-- list: repository.list(appName) with extra package information merged
into each item.  Modelled from the spec: getExtraPluginInfo reads package
metadata and does not override the record fields, so the model returns the
records themselves. -/
def list (s : PMState) : List PluginRecord :=
  storeList s

/-! ### Bootstrap (the beforeLoad application event handler) -/

/-- The beforeLoad pass of the bootstrap handler: the beforeLoad hook on
every registered instance, in registry order, aborting on a throw. -/
def beforeLoadPass : List (String × Plugin) → List Ev × Option PMError
  | [] => ([], none)
  | (_, inst) :: rest =>
    if inst.cls.beforeLoadOk then
      let tail := beforeLoadPass rest
      (Ev.hook inst.name "beforeLoad" :: tail.1, tail.2)
    else ([Ev.hook inst.name "beforeLoad"], some (PMError.hookError inst.name "beforeLoad"))

/-- The body of initDatabasePlugins: sequentially construct an instance for
each persisted record (checkPluginPackage, an external package check, is
assumed to succeed), aborting on a construction failure. -/
def initDBGo (env : PMEnv) : PMState → List PluginRecord → PMState × Option PMError
  | s, [] => (s, none)
  | s, r :: rest =>
    match setDatabasePlugin env s r.name r.enabled r.builtIn with
    | (s1, some _, _) => initDBGo env s1 rest
    | (s1, none, e) => (s1, e)

/-- initDatabasePlugins: populate the registry from every persisted record
of this application, in store order. -/
def initDatabasePlugins (env : PMEnv) (s : PMState) : PMState × Option PMError :=
  initDBGo env s (storeList s)

/-- The beforeLoad application event handler as the source executes it.
The promise returned by initDatabasePlugins is assigned to a field but not
awaited (the source comment above the assignment announces an await that is
not written), and the first step of initDatabasePlugins awaits a repository
read; hence when the registry is empty at handler entry, the loop running
beforeLoad over the registry completes before any database plugin is
registered, and the population finishes afterwards.  The model fixes this
interleaving: the beforeLoad pass runs over the registry as of handler
entry and the population completes after it.  Every theorem about this
handler uses an empty initial registry, where this is exactly the
JavaScript execution order. -/
def beforeLoadHandler (env : PMEnv) (s : PMState) (method : Option String)
    (reload tableExists : Bool) : PMState × List Ev × Option PMError :=
  let evs0 := if method = some "install" ∨ method = some "upgrade" then [Ev.schemaSync] else []
  if tableExists = false then
    (s, evs0 ++ [Ev.logWarn "applicationPlugins collection not exists"], none)
  else if method ≠ some "install" ∨ reload = true then
    match beforeLoadPass s.plugins with
    | (pevs, some e) => (s, evs0 ++ pevs, some e)
    | (pevs, none) =>
      let res := initDatabasePlugins env s
      (res.1, evs0 ++ pevs, res.2)
  else (s, evs0, none)

/-- Modelled from the spec: the intended bootstrap handler, in which the
population of the registry from persisted records completes before the
beforeLoad pass over the registered instances begins (the ordering the
source comment announces and section 4.3 of the design states). -/
def beforeLoadHandlerSpec (env : PMEnv) (s : PMState) (method : Option String)
    (reload tableExists : Bool) : PMState × List Ev × Option PMError :=
  let evs0 := if method = some "install" ∨ method = some "upgrade" then [Ev.schemaSync] else []
  if tableExists = false then
    (s, evs0 ++ [Ev.logWarn "applicationPlugins collection not exists"], none)
  else if method ≠ some "install" ∨ reload = true then
    match initDatabasePlugins env s with
    | (s1, some e) => (s1, evs0, some e)
    | (s1, none) =>
      let pres := beforeLoadPass s1.plugins
      (s1, evs0 ++ pres.1, pres.2)
  else (s, evs0, none)

/-! ### The control channel -/

/-- createByCli: runs the plugin generator and a package-manager install in
the calling process; both are external to the manager state. -/
def createByCli (s : PMState) (name : String) : PMState × List Ev × Option PMError :=
  (s, [Ev.cliCreate name], none)

/-- addByCli: look up the local package directory (fail when it does not
exist), run the external local package build, then addByLocalPath with the
default data. -/
def addByCli (env : PMEnv) (s : PMState) (name : String) :
    PMState × List Ev × Option PMError :=
  match env.localPkg name with
  | none => (s, [], some (PMError.localPluginMissing name))
  | some pkg => addByLocalPath env s pkg.1 pkg.2 none false false

/-- The per-name dispatch of doCliCommand: the method suffixed ByCli. -/
def methodByCli (env : PMEnv) (s : PMState) (m : CliMethod) (name : String) :
    PMState × List Ev × Option PMError :=
  match m with
  | CliMethod.create => createByCli s name
  | CliMethod.add => addByCli env s name
  | CliMethod.enable => enable s name
  | CliMethod.disable => disable s name
  | CliMethod.remove => remove s name

/-- The body of doCliCommand over the plugin names.  The source issues the
per-name calls through Promise.all, so a rejection does not cancel the
other calls; the model runs them in list order (the design treats the
in-process thread as single) and reports the first error. -/
def doCliCommandGo (env : PMEnv) : PMState → CliMethod → List String →
    PMState × List Ev × Option PMError
  | s, _, [] => (s, [], none)
  | s, m, n :: rest =>
    match methodByCli env s m n with
    | (s1, evs1, e1) =>
      match doCliCommandGo env s1 m rest with
      | (s2, evs2, e2) => (s2, (Ev.cliDispatch m n :: evs1) ++ evs2, e1.orElse (fun _ => e2))

/-- doCliCommand: normalise the plugins field to a list of names and run
the method over each name. -/
def doCliCommand (env : PMEnv) (s : PMState) (m : CliMethod) (names : List String) :
    PMState × List Ev × Option PMError :=
  doCliCommandGo env s m names

/-- The Array.isArray normalisation of the plugins field. -/
def msgNames : Sum String (List String) → List String
  | Sum.inl n => [n]
  | Sum.inr l => l

/-- clientWrite: a create command always runs in the calling process; any
other method is written to the control socket when the connection succeeds
(the JSON codec is external and modelled as faithful delivery of the
message), and on connection failure the same command runs in the calling
process.  Dispatch errors are caught and only logged, so no error is
surfaced. -/
def clientWrite (env : PMEnv) (s : PMState) (msg : Msg) (connectOk : Bool) :
    PMState × List Ev :=
  if msg.method = CliMethod.create then
    let res := doCliCommand env s msg.method (msgNames msg.plugins)
    (res.1, res.2.1)
  else if connectOk then (s, [Ev.sockSend msg])
  else
    let res := doCliCommand env s msg.method (msgNames msg.plugins)
    (res.1, res.2.1)

/-- The server side of the control socket: parse the message and run
doCliCommand; dispatch errors are caught and only logged. -/
def serverHandle (env : PMEnv) (s : PMState) (msg : Msg) : PMState × List Ev :=
  let res := doCliCommand env s msg.method (msgNames msg.plugins)
  (res.1, res.2.1)

/-- A recogniser for socket-write events. -/
def isSock : Ev → Bool
  | Ev.sockSend _ => true
  | _ => false

/-- A recogniser for the CLI dispatch event of one method at one name. -/
def isDispatch (m : CliMethod) (n : String) : Ev → Bool
  | Ev.cliDispatch m2 n2 => m2 == m && n2 == n
  | _ => false

/-- The number of CLI dispatches of one method at one name in a trace: the
lifecycle calls a delivered command triggers for that name. -/
def dispatchCount (l : List Ev) (m : CliMethod) (n : String) : Nat :=
  l.countP (isDispatch m n)

/-- A trace touches the socket when it contains a socket write. -/
def hasSock (l : List Ev) : Bool :=
  l.any isSock

/-- A recogniser for control-channel events (socket writes and CLI
dispatches), which the lifecycle methods themselves never produce. -/
def isCtl : Ev → Bool
  | Ev.sockSend _ => true
  | Ev.cliDispatch _ _ => true
  | _ => false

/-- A trace free of control-channel events. -/
def ctlFree (l : List Ev) : Bool :=
  l.all (fun e => !isCtl e)

/-! ### Concrete inputs used by the witnesses and counterexamples -/

/-- An environment in which every package resolves to a default class. -/
def envW : PMEnv :=
  { classes := fun _ => some {}, npmResolve := fun _ => some "1.0.0",
    newVersion := fun _ => some "2.0.0", clientStaticUrl := fun n => n,
    localPkg := fun _ => none }

/-- A plugin instance constructed with enabled false (the state left by a
fresh add, before any restart). -/
def instOff : Plugin := { cls := {}, name := "a", enabled := false, builtIn := false }

/-- The record of the freshly added plugin a. -/
def recOff : PluginRecord := { name := "a", appName := "app", installed := true }

/-- A manager state holding one freshly added, not yet enabled plugin. -/
def stOff : PMState :=
  { appName := "app", plugins := [("a", instOff)], store := [recOff] }

/-- A plugin instance constructed with enabled true. -/
def instOn : Plugin := { cls := {}, name := "a", enabled := true, builtIn := false }

/-- The enabled record of the plugin a. -/
def recOn : PluginRecord :=
  { name := "a", appName := "app", enabled := true, installed := true }

/-- A manager state holding one enabled plugin whose record is enabled. -/
def stOn : PMState :=
  { appName := "app", plugins := [("a", instOn)], store := [recOn] }

/-- A plugin instance requiring the unregistered plugin r. -/
def instNeedsR : Plugin :=
  { cls := { requiredPlugins := ["r"] }, name := "n", enabled := false, builtIn := false }

/-- A manager state in which n requires r but r is not registered. -/
def stNeedsR : PMState :=
  { appName := "app", plugins := [("n", instNeedsR)],
    store := [{ name := "n", appName := "app", installed := true }] }

/-- A builtIn plugin instance. -/
def instBuiltIn : Plugin := { cls := {}, name := "b", enabled := true, builtIn := true }

/-- The record of the builtIn plugin b. -/
def recB : PluginRecord :=
  { name := "b", appName := "app", enabled := true, installed := true, builtIn := true }

/-- A manager state holding one builtIn plugin. -/
def stBuiltIn : PMState :=
  { appName := "app", plugins := [("b", instBuiltIn)], store := [recB] }

/-- A manager state with one persisted record and an empty registry (the
bootstrap situation of a restarted application with no static plugins). -/
def stBoot : PMState :=
  { appName := "app", plugins := [],
    store := [{ name := "a", appName := "app", enabled := true, installed := true }] }

/-- Three enabled plugins for the loadAll scenario: pa loads fine, pb
throws on load, pc would load fine. -/
def paOk : Plugin := { cls := {}, name := "pa", enabled := true, builtIn := false }

/-- The middle plugin of the loadAll scenario, whose load hook throws. -/
def pbBad : Plugin :=
  { cls := { loadOk := false }, name := "pb", enabled := true, builtIn := false }

/-- The final plugin of the loadAll scenario, never reached. -/
def pcOk : Plugin := { cls := {}, name := "pc", enabled := true, builtIn := false }

/-- The registry [pa, pb, pc] of the loadAll scenario. -/
def stAbc : PMState :=
  { appName := "app", plugins := [("pa", paOk), ("pb", pbBad), ("pc", pcOk)], store := [] }

/-- An empty manager state. -/
def stEmpty : PMState := { appName := "app", plugins := [], store := [] }

/-! ### Helper lemmas about the registry, the store and the operations -/

/-- Setting a key in the registry makes it retrievable. -/
theorem mapGet_mapSet_self (m : List (String × Plugin)) (k : String) (v : Plugin) :
    mapGet (mapSet m k v) k = some v := by
  induction m with
  | nil => simp [mapSet, mapGet]
  | cons p rest ih =>
    by_cases h : p.1 = k
    · simp [mapSet, mapGet, h]
    · simp [mapSet, mapGet, h, ih]

/-- The required check passes when every required name maps to an enabled
instance. -/
theorem checkRequired_eq_none (s : PMState) (n : String) (l : List String)
    (h : ∀ r ∈ l, ∃ p, mapGet s.plugins r = some p ∧ p.enabled = true) :
    checkRequired s n l = none := by
  induction l with
  | nil => rfl
  | cons a rest ih =>
    obtain ⟨p, hp, he⟩ := h a (List.mem_cons_self a rest)
    simp only [checkRequired, hp, he, if_true]
    exact ih (fun r hr => h r (List.mem_cons_of_mem a hr))

/-- When the required check raises the dedicated error, the offending name
is one of the required names and maps to a registered, disabled instance. -/
theorem checkRequired_rpne (s : PMState) (n : String) (l : List String) (a b : String)
    (h : checkRequired s n l = some (PMError.requiredPluginNotEnabled a b)) :
    a = n ∧ b ∈ l ∧ ∃ p, mapGet s.plugins b = some p ∧ p.enabled = false := by
  induction l with
  | nil => simp [checkRequired] at h
  | cons c rest ih =>
    rw [checkRequired] at h
    cases hg : mapGet s.plugins c with
    | none => rw [hg] at h; simp at h
    | some p =>
      rw [hg] at h
      dsimp only at h
      by_cases he : p.enabled = true
      · rw [if_pos he] at h
        obtain ⟨ha, hb, hp⟩ := ih h
        exact ⟨ha, List.mem_cons_of_mem c hb, hp⟩
      · rw [if_neg he] at h
        simp only [Option.some.injEq, PMError.requiredPluginNotEnabled.injEq] at h
        refine ⟨h.1.symm, ?_, p, ?_, ?_⟩
        · rw [← h.2]; exact List.mem_cons_self c rest
        · rw [← h.2]; exact hg
        · simpa using he

/-- When the required check raises a TypeError, some required name is not
in the registry at all. -/
theorem checkRequired_typeError (s : PMState) (n : String) (l : List String)
    (h : checkRequired s n l = some PMError.typeError) :
    ∃ r ∈ l, mapGet s.plugins r = none := by
  induction l with
  | nil => simp [checkRequired] at h
  | cons c rest ih =>
    rw [checkRequired] at h
    cases hg : mapGet s.plugins c with
    | none => exact ⟨c, List.mem_cons_self c rest, hg⟩
    | some p =>
      rw [hg] at h
      dsimp only at h
      by_cases he : p.enabled = true
      · rw [if_pos he] at h
        obtain ⟨r, hr, hn⟩ := ih h
        exact ⟨r, List.mem_cons_of_mem c hr, hn⟩
      · rw [if_neg he] at h; simp at h

/-- A record whose enabled flag is already true is unchanged by setting it. -/
theorem record_set_enabled_id (r : PluginRecord) (h : r.enabled = true) :
    ({ r with enabled := true } : PluginRecord) = r := by
  cases r; simp_all

/-- A pointwise-identity map is the identity. -/
theorem map_id_of (l : List PluginRecord) (f : PluginRecord → PluginRecord)
    (h : ∀ r ∈ l, f r = r) : l.map f = l := by
  induction l with
  | nil => rfl
  | cons a t ih =>
    rw [List.map_cons, h a (List.mem_cons_self a t),
        ih (fun r hr => h r (List.mem_cons_of_mem a hr))]

/-- Persisting enabled true is the identity on a store whose matching
records are already enabled. -/
theorem storeSetEnabled_id (s : PMState) (name : String)
    (h : ∀ r ∈ s.store, r.name = name → r.appName = s.appName → r.enabled = true) :
    storeSetEnabled s name true = s := by
  have hm : s.store.map (fun r =>
      if r.name = name ∧ r.appName = s.appName then { r with enabled := true } else r)
      = s.store := by
    apply map_id_of
    intro r hr
    by_cases hc : r.name = name ∧ r.appName = s.appName
    · rw [if_pos hc]; exact record_set_enabled_id r (h r hr hc.1 hc.2)
    · rw [if_neg hc]
  unfold storeSetEnabled
  rw [hm]

/-- After persisting enabled true, every matching record is enabled. -/
theorem storeSetEnabled_mem (s : PMState) (name : String) :
    ∀ r ∈ (storeSetEnabled s name true).store,
      r.name = name → r.appName = s.appName → r.enabled = true := by
  intro r hr h1 h2
  simp only [storeSetEnabled, List.mem_map] at hr
  obtain ⟨r0, _, heq⟩ := hr
  by_cases hc : r0.name = name ∧ r0.appName = s.appName
  · rw [if_pos hc] at heq; rw [← heq]
  · rw [if_neg hc] at heq; subst heq; exact absurd ⟨h1, h2⟩ hc

/-- Instance construction does not touch the record store. -/
theorem setDatabasePlugin_store (env : PMEnv) (s : PMState) (n : String) (e b : Bool) :
    (setDatabasePlugin env s n e b).1.store = s.store := by
  unfold setDatabasePlugin
  rcases env.classes n with _ | cls <;> rfl

/-- Instance construction does not change the application name. -/
theorem setDatabasePlugin_appName (env : PMEnv) (s : PMState) (n : String) (e b : Bool) :
    (setDatabasePlugin env s n e b).1.appName = s.appName := by
  unfold setDatabasePlugin
  rcases env.classes n with _ | cls <;> rfl

/-- The two possible shapes of an instance construction. -/
theorem setDatabasePlugin_inv (env : PMEnv) (s : PMState) (n : String) (e b : Bool) :
    setDatabasePlugin env s n e b = (s, none, some (PMError.invalidPluginExport n)) ∨
    ∃ cls, env.classes n = some cls ∧
      setDatabasePlugin env s n e b =
        ({ s with plugins :=
            mapSet s.plugins n { cls := cls, name := n, enabled := e, builtIn := b } },
         some { cls := cls, name := n, enabled := e, builtIn := b }, none) := by
  unfold setDatabasePlugin
  rcases h : env.classes n with _ | cls
  · exact Or.inl rfl
  · exact Or.inr ⟨cls, rfl, rfl⟩

/-- The load routine either succeeds or throws from the load hook. -/
theorem loadOne_err (inst : Plugin) :
    (loadOne inst).2 = none ∨ (loadOne inst).2 = some (PMError.hookError inst.name "load") := by
  unfold loadOne
  split_ifs <;> simp

/-- The equation of enable on the happy path through install and
afterEnable: the record update, the three hook steps, then whatever the
load routine adds. -/
theorem enable_eq (s : PMState) (name : String) (inst : Plugin)
    (h : mapGet s.plugins name = some inst)
    (hc : checkRequired s name inst.cls.requiredPlugins = none)
    (hi : inst.cls.installOk = true) (ha : inst.cls.afterEnableOk = true) :
    enable s name = (storeSetEnabled s name true,
      [Ev.recUpdateEnabled name true, Ev.hook name "install", Ev.hook name "afterEnable",
       Ev.emit "afterEnablePlugin" name] ++ (loadOne inst).1, (loadOne inst).2) := by
  simp [enable, h, hc, hi, ha]

/-- The equation of enable when the install hook throws: the record update
stands, the remaining steps never run. -/
theorem enable_install_throw (s : PMState) (name : String) (inst : Plugin)
    (h : mapGet s.plugins name = some inst)
    (hc : checkRequired s name inst.cls.requiredPlugins = none)
    (hi : inst.cls.installOk = false) :
    enable s name = (storeSetEnabled s name true,
      [Ev.recUpdateEnabled name true, Ev.hook name "install"],
      some (PMError.hookError name "install")) := by
  simp [enable, h, hc, hi]

/-- An enable failure with the required-plugin error comes from the
required check, before any mutation. -/
theorem enable_rpne_inv (s : PMState) (name a b : String)
    (h : (enable s name).2.2 = some (PMError.requiredPluginNotEnabled a b)) :
    ∃ inst, mapGet s.plugins name = some inst ∧
      checkRequired s name inst.cls.requiredPlugins =
        some (PMError.requiredPluginNotEnabled a b) ∧
      enable s name = (s, [], some (PMError.requiredPluginNotEnabled a b)) := by
  rcases hg : mapGet s.plugins name with _ | inst
  · rw [show (enable s name) = (s, [], some (PMError.pluginNotFound name)) by
      simp [enable, hg]] at h
    simp at h
  · rcases hcr : checkRequired s name inst.cls.requiredPlugins with _ | e
    · by_cases hi : inst.cls.installOk = true
      · by_cases ha : inst.cls.afterEnableOk = true
        · rw [enable_eq s name inst hg hcr hi ha] at h
          rcases loadOne_err inst with h2 | h2 <;> rw [show ((storeSetEnabled s name true,
              [Ev.recUpdateEnabled name true, Ev.hook name "install",
               Ev.hook name "afterEnable", Ev.emit "afterEnablePlugin" name] ++
                (loadOne inst).1, (loadOne inst).2) : PMState × List Ev × Option PMError).2.2
              = (loadOne inst).2 from rfl] at h <;> rw [h2] at h <;> simp at h
        · have ha2 : inst.cls.afterEnableOk = false := by simpa using ha
          simp [enable, hg, hcr, hi, ha2] at h
      · have hi2 : inst.cls.installOk = false := by simpa using hi
        simp [enable, hg, hcr, hi2] at h
    · have heq : enable s name = (s, [], some e) := by simp [enable, hg, hcr]
      rw [heq] at h
      simp only [Option.some.injEq] at h
      subst h
      exact ⟨inst, rfl, hcr, heq⟩

/-- An enable failure with a TypeError comes from the required check,
before any mutation. -/
theorem enable_typeError_inv (s : PMState) (name : String)
    (h : (enable s name).2.2 = some PMError.typeError) :
    ∃ inst, mapGet s.plugins name = some inst ∧
      checkRequired s name inst.cls.requiredPlugins = some PMError.typeError ∧
      enable s name = (s, [], some PMError.typeError) := by
  rcases hg : mapGet s.plugins name with _ | inst
  · rw [show (enable s name) = (s, [], some (PMError.pluginNotFound name)) by
      simp [enable, hg]] at h
    simp at h
  · rcases hcr : checkRequired s name inst.cls.requiredPlugins with _ | e
    · by_cases hi : inst.cls.installOk = true
      · by_cases ha : inst.cls.afterEnableOk = true
        · rw [enable_eq s name inst hg hcr hi ha] at h
          rcases loadOne_err inst with h2 | h2 <;> rw [show ((storeSetEnabled s name true,
              [Ev.recUpdateEnabled name true, Ev.hook name "install",
               Ev.hook name "afterEnable", Ev.emit "afterEnablePlugin" name] ++
                (loadOne inst).1, (loadOne inst).2) : PMState × List Ev × Option PMError).2.2
              = (loadOne inst).2 from rfl] at h <;> rw [h2] at h <;> simp at h
        · have ha2 : inst.cls.afterEnableOk = false := by simpa using ha
          simp [enable, hg, hcr, hi, ha2] at h
      · have hi2 : inst.cls.installOk = false := by simpa using hi
        simp [enable, hg, hcr, hi2] at h
    · have heq : enable s name = (s, [], some e) := by simp [enable, hg, hcr]
      rw [heq] at h
      simp only [Option.some.injEq] at h
      subst h
      exact ⟨inst, rfl, hcr, heq⟩

/-! ### Control-channel helper lemmas -/

/-- Control freedom distributes over concatenation. -/
theorem ctlFree_append (a b : List Ev) : ctlFree (a ++ b) = (ctlFree a && ctlFree b) := by
  simp [ctlFree]

/-- The load routine emits no control-channel events. -/
theorem loadOne_ctl (inst : Plugin) : ctlFree (loadOne inst).1 = true := by
  unfold loadOne
  split_ifs <;> simp [ctlFree, isCtl]

/-- The enable method emits no control-channel events. -/
theorem enable_ctl (s : PMState) (name : String) : ctlFree (enable s name).2.1 = true := by
  rcases hg : mapGet s.plugins name with _ | inst
  · simp [enable, hg, ctlFree]
  · rcases hcr : checkRequired s name inst.cls.requiredPlugins with _ | e
    · by_cases hi : inst.cls.installOk = true
      · by_cases ha : inst.cls.afterEnableOk = true
        · rw [enable_eq s name inst hg hcr hi ha]
          show ctlFree (_ ++ (loadOne inst).1) = true
          rw [ctlFree_append, loadOne_ctl]
          simp [ctlFree, isCtl]
        · have ha2 : inst.cls.afterEnableOk = false := by simpa using ha
          simp [enable, hg, hcr, hi, ha2, ctlFree, isCtl]
      · have hi2 : inst.cls.installOk = false := by simpa using hi
        simp [enable, hg, hcr, hi2, ctlFree, isCtl]
    · simp [enable, hg, hcr, ctlFree]

/-- The disable method emits no control-channel events. -/
theorem disable_ctl (s : PMState) (name : String) : ctlFree (disable s name).2.1 = true := by
  unfold disable
  split
  · simp [ctlFree]
  · split_ifs <;> simp [ctlFree, isCtl]

/-- The remove method emits no control-channel events. -/
theorem remove_ctl (s : PMState) (name : String) : ctlFree (remove s name).2.1 = true := by
  unfold remove
  split
  · simp [ctlFree]
  · split_ifs <;> simp [ctlFree, isCtl]

/-- The local-path add emits no control-channel events. -/
theorem addByLocalPath_ctl (env : PMEnv) (s : PMState) (name version : String)
    (zipUrl : Option String) (b o : Bool) :
    ctlFree (addByLocalPath env s name version zipUrl b o).2.1 = true := by
  unfold addByLocalPath
  split
  · simp [ctlFree]
  · dsimp only
    split
    · simp [ctlFree]
    · split
      · simp [ctlFree, isCtl]
      · split_ifs <;> simp [ctlFree, isCtl]

/-- The CLI add emits no control-channel events. -/
theorem addByCli_ctl (env : PMEnv) (s : PMState) (name : String) :
    ctlFree (addByCli env s name).2.1 = true := by
  unfold addByCli
  split
  · simp [ctlFree]
  · exact addByLocalPath_ctl _ _ _ _ _ _ _

/-- The CLI create emits no control-channel events. -/
theorem createByCli_ctl (s : PMState) (name : String) :
    ctlFree (createByCli s name).2.1 = true := by
  simp [createByCli, ctlFree, isCtl]

/-- The per-name CLI dispatch target emits no control-channel events. -/
theorem methodByCli_ctl (env : PMEnv) (s : PMState) (m : CliMethod) (name : String) :
    ctlFree (methodByCli env s m name).2.1 = true := by
  cases m with
  | create => exact createByCli_ctl s name
  | add => exact addByCli_ctl env s name
  | enable => exact enable_ctl s name
  | disable => exact disable_ctl s name
  | remove => exact remove_ctl s name

/-- A control-free trace contains no socket write. -/
theorem hasSock_of_ctlFree (l : List Ev) (h : ctlFree l = true) : hasSock l = false := by
  simp only [ctlFree, List.all_eq_true] at h
  simp only [hasSock, List.any_eq_false]
  intro e he
  have h2 := h e he
  cases e <;> simp_all [isCtl, isSock]

/-- A control-free trace contains no CLI dispatch. -/
theorem dispatchCount_of_ctlFree (l : List Ev) (m : CliMethod) (n : String)
    (h : ctlFree l = true) : dispatchCount l m n = 0 := by
  simp only [ctlFree, List.all_eq_true] at h
  simp only [dispatchCount, List.countP_eq_zero]
  intro e he
  have h2 := h e he
  cases e <;> simp_all [isCtl, isDispatch]

/-- A local CLI command never writes to the socket. -/
theorem doCliCommandGo_sock (env : PMEnv) (m : CliMethod) :
    ∀ (ns : List String) (s : PMState), hasSock (doCliCommandGo env s m ns).2.1 = false := by
  intro ns
  induction ns with
  | nil => intro s; rfl
  | cons n rest ih =>
    intro s
    unfold doCliCommandGo
    rcases hm : methodByCli env s m n with ⟨s1, evs1, e1⟩
    dsimp only
    rcases hg : doCliCommandGo env s1 m rest with ⟨s2, evs2, e2⟩
    dsimp only
    have h1 : hasSock evs1 = false := by
      have h3 := hasSock_of_ctlFree (methodByCli env s m n).2.1 (methodByCli_ctl env s m n)
      rw [hm] at h3
      exact h3
    have h2 : hasSock evs2 = false := by
      have h3 := ih s1
      rw [hg] at h3
      exact h3
    simp only [hasSock, List.any_cons, List.any_append, isSock] at h1 h2 ⊢
    simp [h1, h2]

/-- A single-name command delivered to the server dispatches the lifecycle
method exactly once for that name. -/
theorem serverHandle_dispatch (env : PMEnv) (s : PMState) (m : CliMethod) (n : String) :
    dispatchCount (serverHandle env s (Msg.mk m (Sum.inl n))).2 m n = 1 := by
  unfold serverHandle doCliCommand msgNames doCliCommandGo
  rcases hm : methodByCli env s m n with ⟨s1, evs1, e1⟩
  have h1 : dispatchCount evs1 m n = 0 := by
    have := dispatchCount_of_ctlFree (methodByCli env s m n).2.1 m n (methodByCli_ctl env s m n)
    rw [hm] at this
    exact this
  simp only [doCliCommandGo]
  simp only [dispatchCount, List.countP_cons, List.countP_append, List.append_nil,
    isDispatch, beq_self_eq_true, Bool.and_self, if_true] at h1 ⊢
  simp [h1]

/-- Looking a record up is invariant under store and appName equality. -/
theorem storeFindOne_congr (t1 t2 : PMState) (name : String)
    (hst : t1.store = t2.store) (hap : t1.appName = t2.appName) :
    storeFindOne t1 name = storeFindOne t2 name := by
  unfold storeFindOne
  rw [hst, hap]

/-- Updating the version of a found record keeps it findable, with the new
version. -/
theorem storeFindOne_setVersion (s : PMState) (name v : String) (r : PluginRecord)
    (h : storeFindOne s name = some r) :
    storeFindOne (storeSetVersion s name v) name = some { r with version := some v } := by
  unfold storeFindOne at h
  have hr := @List.find?_some PluginRecord
    (fun q : PluginRecord => q.name == name && q.appName == s.appName) r s.store h
  have hc : r.name = name ∧ r.appName = s.appName := by
    simpa only [Bool.and_eq_true, beq_iff_eq] using hr
  have hcomp : ((fun q : PluginRecord => q.name == name && q.appName == s.appName) ∘
      (fun x : PluginRecord =>
        if x.name = name ∧ x.appName = s.appName then { x with version := some v } else x))
      = (fun q : PluginRecord => q.name == name && q.appName == s.appName) := by
    funext x
    by_cases hx : x.name = name ∧ x.appName = s.appName
    · rw [Function.comp_apply, if_pos hx]
    · rw [Function.comp_apply, if_neg hx]
  unfold storeFindOne storeSetVersion
  dsimp only
  rw [List.find?_map, hcomp, h, Option.map_some', if_pos hc]

/-- The store of the upgrade tail without a new version: unchanged (the
update carries an undefined version, which the store skips). -/
theorem upgradeFinish_store (env : PMEnv) (s : PMState) (name : String) (rec0 : PluginRecord)
    (evs0 : List Ev) (cls : PluginClassDef)
    (hcls : env.classes name = some cls) (hok : cls.afterAddOk = true) :
    (upgradeFinish env s name rec0 none evs0).1.store = s.store := by
  unfold upgradeFinish
  simp only [setDatabasePlugin, hcls]
  by_cases he : rec0.enabled = true <;> by_cases hl : cls.loadOk = true <;>
    simp [hok, he, hl]

/-- The store of the upgrade tail with a new version: the version update. -/
theorem upgradeFinish_store_v (env : PMEnv) (s : PMState) (name v : String)
    (rec0 : PluginRecord) (evs0 : List Ev) (cls : PluginClassDef)
    (hcls : env.classes name = some cls) (hok : cls.afterAddOk = true) :
    (upgradeFinish env s name rec0 (some v) evs0).1.store
      = (storeSetVersion s name v).store := by
  unfold upgradeFinish
  simp only [setDatabasePlugin, hcls]
  by_cases he : rec0.enabled = true <;> by_cases hl : cls.loadOk = true <;>
    simp [hok, he, hl]

/-- The upgrade tail keeps the application name. -/
theorem upgradeFinish_appName (env : PMEnv) (s : PMState) (name : String)
    (rec0 : PluginRecord) (newVer : Option String) (evs0 : List Ev) (cls : PluginClassDef)
    (hcls : env.classes name = some cls) (hok : cls.afterAddOk = true) :
    (upgradeFinish env s name rec0 newVer evs0).1.appName = s.appName := by
  unfold upgradeFinish
  rcases newVer with _ | v <;> simp only [setDatabasePlugin, hcls] <;>
    by_cases he : rec0.enabled = true <;> by_cases hl : cls.loadOk = true <;>
    simp [hok, he, hl, storeSetVersion]

/-- The upgrade tail reconstructs the instance from the fetched record. -/
theorem upgradeFinish_plugins (env : PMEnv) (s : PMState) (name : String)
    (rec0 : PluginRecord) (newVer : Option String) (evs0 : List Ev) (cls : PluginClassDef)
    (hcls : env.classes name = some cls) (hok : cls.afterAddOk = true) :
    mapGet (upgradeFinish env s name rec0 newVer evs0).1.plugins name
      = some { cls := cls, name := name, enabled := rec0.enabled, builtIn := rec0.builtIn } := by
  unfold upgradeFinish
  rcases newVer with _ | v <;> simp only [setDatabasePlugin, hcls] <;>
    by_cases he : rec0.enabled = true <;> by_cases hl : cls.loadOk = true <;>
    simp [hok, he, hl, storeSetVersion, mapGet_mapSet_self]

/-- The trace of the upgrade tail: the version update, the afterAdd hook,
and the load hook exactly when the fetched record was enabled. -/
theorem upgradeFinish_trace (env : PMEnv) (s : PMState) (name : String)
    (rec0 : PluginRecord) (newVer : Option String) (evs0 : List Ev) (cls : PluginClassDef)
    (hcls : env.classes name = some cls) (hok : cls.afterAddOk = true) :
    (upgradeFinish env s name rec0 newVer evs0).2.1
      = evs0 ++ [Ev.recUpdateVersion name] ++
        (if rec0.enabled = true then [Ev.hook name "afterAdd", Ev.hook name "load"]
         else [Ev.hook name "afterAdd"]) := by
  unfold upgradeFinish
  rcases newVer with _ | v <;> simp only [setDatabasePlugin, hcls] <;>
    by_cases he : rec0.enabled = true <;> by_cases hl : cls.loadOk = true <;>
    simp [hok, he, hl]

/-! ### The claims -/

/-- C1, counterexample to the claim as stated: at stOff (a registered
plugin with no required plugins, all hooks completing, whose instance was
constructed with enabled false, the state a fresh add leaves), enable
succeeds, yet the trace contains no load hook call: the claimed final load
step of the hook sequence does not run, because the load routine consults
the construction-time enabled flag of the instance, which enable never
updates. -/
theorem C1_counterexample :
    (enable stOff "a").2.2 = none ∧ Ev.hook "a" "load" ∉ (enable stOff "a").2.1 := by
  decide

/-- C1 (amended): for a registered plugin whose required plugins all map to
enabled instances, enable persists enabled true to the record store first
and then runs install, afterEnable and the afterEnablePlugin application
event in that order, each step completing before the next, and finally
invokes the single-plugin load routine; that routine emits beforeLoadPlugin
and runs the load hook only when the construction-time enabled flag of the
instance is true, and is a no-op otherwise.  If install throws, the
remaining steps do not run and the record remains persisted with enabled
true. -/
theorem C1_enable_sequence (s : PMState) (name : String) (inst : Plugin)
    (h : mapGet s.plugins name = some inst)
    (hreq : ∀ r ∈ inst.cls.requiredPlugins, ∃ p, mapGet s.plugins r = some p ∧ p.enabled = true) :
    (inst.cls.installOk = true → inst.cls.afterEnableOk = true →
      enable s name = (storeSetEnabled s name true,
        [Ev.recUpdateEnabled name true, Ev.hook name "install", Ev.hook name "afterEnable",
         Ev.emit "afterEnablePlugin" name] ++ (loadOne inst).1, (loadOne inst).2)) ∧
    (inst.enabled = true → inst.cls.loadOk = true →
      loadOne inst = ([Ev.emit "beforeLoadPlugin" inst.name, Ev.hook inst.name "load",
        Ev.emit "afterLoadPlugin" inst.name], none)) ∧
    (inst.enabled = false → loadOne inst = ([], none)) ∧
    (inst.cls.installOk = false →
      enable s name = (storeSetEnabled s name true,
        [Ev.recUpdateEnabled name true, Ev.hook name "install"],
        some (PMError.hookError name "install")) ∧
      ∀ r ∈ (enable s name).1.store, r.name = name → r.appName = s.appName →
        r.enabled = true) := by
  have hc : checkRequired s name inst.cls.requiredPlugins = none :=
    checkRequired_eq_none s name inst.cls.requiredPlugins hreq
  refine ⟨fun hi ha => enable_eq s name inst h hc hi ha, ?_, ?_, fun hi => ⟨?_, ?_⟩⟩
  · intro he hl
    simp [loadOne, he, hl]
  · intro he
    simp [loadOne, he]
  · exact enable_install_throw s name inst h hc hi
  · rw [enable_install_throw s name inst h hc hi]
    exact storeSetEnabled_mem s name

/-- C1 witness: the amended sequence at the concrete enabled plugin a. -/
theorem C1_witness :
    enable stOn "a" = (storeSetEnabled stOn "a" true,
      [Ev.recUpdateEnabled "a" true, Ev.hook "a" "install", Ev.hook "a" "afterEnable",
       Ev.emit "afterEnablePlugin" "a"] ++ (loadOne instOn).1, (loadOne instOn).2) :=
  (C1_enable_sequence stOn "a" instOn (by decide) (by simp [instOn])).1 rfl rfl

/-- C2, counterexample to the claim as stated: at stNeedsR the plugin n
requires r and r does not map to any instance, so by the claim enable must
fail with the required-plugin error; instead the code reads the enabled
property of an undefined lookup result and fails with a TypeError, which is
not the required-plugin error for any required name. -/
theorem C2_counterexample :
    (enable stNeedsR "n").2.2 = some PMError.typeError ∧
    mapGet stNeedsR.plugins "r" = none ∧
    "r" ∈ instNeedsR.cls.requiredPlugins ∧
    ∀ b, (some PMError.typeError : Option PMError) ≠
      some (PMError.requiredPluginNotEnabled "n" b) := by
  refine ⟨by decide, by decide, by decide, ?_⟩
  intro b
  simp

/-- C2 (amended): for a registered plugin, enable fails with the
required-plugin error only when some required name maps to a registered but
disabled instance, and when every required name maps to an enabled instance
no such failure occurs; a required name that is missing from the registry
makes enable fail with a TypeError instead.  Either required-check failure
leaves the state untouched and precedes the record store update. -/
theorem C2_required_check (s : PMState) (name : String) (inst : Plugin)
    (h : mapGet s.plugins name = some inst) :
    ((∀ r ∈ inst.cls.requiredPlugins, ∃ p, mapGet s.plugins r = some p ∧ p.enabled = true) →
      ∀ a b, (enable s name).2.2 ≠ some (PMError.requiredPluginNotEnabled a b)) ∧
    (∀ b, (enable s name).2.2 = some (PMError.requiredPluginNotEnabled name b) →
      b ∈ inst.cls.requiredPlugins ∧
      (∃ p, mapGet s.plugins b = some p ∧ p.enabled = false) ∧
      enable s name = (s, [], some (PMError.requiredPluginNotEnabled name b))) ∧
    ((enable s name).2.2 = some PMError.typeError →
      (∃ r ∈ inst.cls.requiredPlugins, mapGet s.plugins r = none) ∧
      enable s name = (s, [], some PMError.typeError)) := by
  refine ⟨?_, ?_, ?_⟩
  · intro hall a b hne
    obtain ⟨inst2, hg2, hcr2, _⟩ := enable_rpne_inv s name a b hne
    rw [h] at hg2
    obtain rfl : inst = inst2 := by simpa using hg2
    rw [checkRequired_eq_none s name inst.cls.requiredPlugins hall] at hcr2
    simp at hcr2
  · intro b hne
    obtain ⟨inst2, hg2, hcr2, heq⟩ := enable_rpne_inv s name name b hne
    rw [h] at hg2
    obtain rfl : inst = inst2 := by simpa using hg2
    obtain ⟨_, hb, hp⟩ := checkRequired_rpne s name inst.cls.requiredPlugins name b hcr2
    exact ⟨hb, hp, heq⟩
  · intro hne
    obtain ⟨inst2, hg2, hcr2, heq⟩ := enable_typeError_inv s name hne
    rw [h] at hg2
    obtain rfl : inst = inst2 := by simpa using hg2
    exact ⟨checkRequired_typeError s name inst.cls.requiredPlugins hcr2, heq⟩

/-- C2 witness: at the concrete state stOn the required list is empty, so
enable never fails with the required-plugin error. -/
theorem C2_witness :
    mapGet stOn.plugins "a" = some instOn ∧
    ∀ a b, (enable stOn "a").2.2 ≠ some (PMError.requiredPluginNotEnabled a b) :=
  ⟨by decide, (C2_required_check stOn "a" instOn (by decide)).1 (by simp [instOn])⟩

/-- C3: for a registered plugin whose record has builtIn true (the
in-memory instance carries the same construction-time builtIn flag),
disable and remove both fail with the builtIn protection error regardless
of any other state, the returned state is exactly the input state (record
store and instance registry untouched) and the trace is empty (no hook
runs). -/
theorem C3_builtin_protected (s : PMState) (name : String) (inst : Plugin) (r : PluginRecord)
    (hin : mapGet s.plugins name = some inst)
    (hrec : storeFindOne s name = some r) (hb : r.builtIn = true)
    (hcoh : inst.builtIn = r.builtIn) :
    disable s name = (s, [], some (PMError.builtInProtected name)) ∧
    remove s name = (s, [], some (PMError.builtInProtected name)) := by
  have hib : inst.builtIn = true := by rw [hcoh, hb]
  constructor
  · simp [disable, hin, hib]
  · simp [remove, hin, hib]

/-- C3 witness: the builtIn plugin b at the concrete state stBuiltIn. -/
theorem C3_witness :
    disable stBuiltIn "b" = (stBuiltIn, [], some (PMError.builtInProtected "b")) ∧
    remove stBuiltIn "b" = (stBuiltIn, [], some (PMError.builtInProtected "b")) :=
  C3_builtin_protected stBuiltIn "b" instBuiltIn recB (by decide) (by decide) (by decide)
    (by decide)

/-- C4: the divergence of the bootstrap handler from the stated ordering,
at the state stBoot (record table present, method load, one persisted
record, no static plugins).  In the handler as the source executes it the
beforeLoad hook of the persisted plugin a never runs (the population
promise is not awaited, so the beforeLoad pass runs over the still-empty
registry), while the intended handler, which awaits population before the
pass, does run it; both end in the same final state with a registered, and
neither errs. -/
theorem C4_divergence :
    Ev.hook "a" "beforeLoad" ∉ (beforeLoadHandler envW stBoot (some "load") false true).2.1 ∧
    Ev.hook "a" "beforeLoad" ∈ (beforeLoadHandlerSpec envW stBoot (some "load") false true).2.1 ∧
    (mapGet (beforeLoadHandler envW stBoot (some "load") false true).1.plugins "a").isSome
      = true ∧
    (beforeLoadHandler envW stBoot (some "load") false true).1 =
      (beforeLoadHandlerSpec envW stBoot (some "load") false true).1 ∧
    (beforeLoadHandler envW stBoot (some "load") false true).2.2 = none := by
  decide

/-- C5: loadAll over a registry [pa, pb, pc] in that order, with pa enabled
and loading fine, pb enabled with a throwing load hook, and pc enabled:
the pass aborts at pb, the trace is exactly the load of pa followed by the
failing load of pb, and the load hook of pc is never invoked. -/
theorem C5_load_abort (s : PMState) (ka kb kc : String) (A B C : Plugin)
    (hreg : s.plugins = [(ka, A), (kb, B), (kc, C)])
    (hA : A.enabled = true) (hAok : A.cls.loadOk = true)
    (hB : B.enabled = true) (hBload : B.cls.loadOk = false)
    (hCen : C.enabled = true)
    (hCA : C.name ≠ A.name) (hCB : C.name ≠ B.name) :
    (loadAll s).2 = some (PMError.hookError B.name "load") ∧
    Ev.hook C.name "load" ∉ (loadAll s).1 ∧
    (loadAll s).1 = [Ev.emit "beforeLoadPlugin" A.name, Ev.hook A.name "load",
      Ev.emit "afterLoadPlugin" A.name, Ev.emit "beforeLoadPlugin" B.name,
      Ev.hook B.name "load"] := by
  have hl : loadAll s = ([Ev.emit "beforeLoadPlugin" A.name, Ev.hook A.name "load",
      Ev.emit "afterLoadPlugin" A.name, Ev.emit "beforeLoadPlugin" B.name,
      Ev.hook B.name "load"], some (PMError.hookError B.name "load")) := by
    simp [loadAll, hreg, loadAllGo, loadOne, hA, hAok, hB, hBload]
  rw [hl]
  refine ⟨rfl, ?_, rfl⟩
  simp [hCA, hCB]

/-- C5 witness: the concrete registry stAbc. -/
theorem C5_witness :
    (loadAll stAbc).2 = some (PMError.hookError "pb" "load") ∧
    Ev.hook "pc" "load" ∉ (loadAll stAbc).1 := by
  have h := C5_load_abort stAbc "pa" "pb" "pc" paOk pbBad pcOk rfl (by decide) (by decide)
    (by decide) (by decide) (by decide) (by decide) (by decide)
  exact ⟨h.1, h.2.1⟩

/-- C6: after a first addByLocalPath resolving to a package name succeeds,
a second addByLocalPath resolving to the same name fails with the duplicate
error, returns the state unchanged and emits no event: the registry
duplicate check precedes the record create, so no second record is created
and no instance is replaced. -/
theorem C6_duplicate_add (env : PMEnv) (s s1 : PMState) (evs1 : List Ev)
    (name version version2 : String) (zipUrl zipUrl2 : Option String) (b o b2 o2 : Bool)
    (h1 : addByLocalPath env s name version zipUrl b o = (s1, evs1, none)) :
    addByLocalPath env s1 name version2 zipUrl2 b2 o2 =
      (s1, [], some (PMError.duplicatePlugin name)) := by
  have hreg : (mapGet s1.plugins name).isSome = true := by
    unfold addByLocalPath at h1
    by_cases hdup : (mapGet s.plugins name).isSome = true
    · rw [if_pos hdup] at h1
      simp at h1
    · rw [if_neg hdup] at h1
      dsimp only at h1
      split at h1
      · simp at h1
      · rename_i sc hsc
        split at h1
        · rename_i s2 e heq2
          have he : e = none := by
            have h6 := congrArg (fun t : PMState × List Ev × Option PMError => t.2.2) h1
            simpa using h6
          subst he
          rcases setDatabasePlugin_inv env sc name false b with hcase | ⟨cls, _, hcase⟩
          · rw [heq2] at hcase
            simp at hcase
          · rw [heq2] at hcase
            simp at hcase
        · rename_i s2 inst snd heq2
          by_cases hok : inst.cls.afterAddOk = true
          · rw [if_pos hok] at h1
            simp only [Prod.mk.injEq] at h1
            obtain ⟨hs1, -, -⟩ := h1
            rcases setDatabasePlugin_inv env sc name false b with hcase | ⟨cls, _, hcase⟩
            · rw [heq2] at hcase
              simp at hcase
            · rw [heq2] at hcase
              simp only [Prod.mk.injEq] at hcase
              obtain ⟨hst, hinst, -⟩ := hcase
              rw [← hs1, hst]
              simp [mapGet_mapSet_self]
          · rw [if_neg hok] at h1
            simp at h1
  simp [addByLocalPath, hreg]

/-- C6 witness: adding the same local package twice from the empty state. -/
theorem C6_witness :
    addByLocalPath envW (addByLocalPath envW stEmpty "p" "0.1.0" none false false).1
        "p" "0.1.0" none false false =
      ((addByLocalPath envW stEmpty "p" "0.1.0" none false false).1, [],
       some (PMError.duplicatePlugin "p")) := by
  have h1 : addByLocalPath envW stEmpty "p" "0.1.0" none false false
      = ((addByLocalPath envW stEmpty "p" "0.1.0" none false false).1,
         (addByLocalPath envW stEmpty "p" "0.1.0" none false false).2.1, none) := by
    decide
  exact C6_duplicate_add envW stEmpty _ _ "p" "0.1.0" "0.1.0" none none false false
    false false h1

/-- C7: upgradeByNpm fails with the not-found error when no record for the
name and application exists, and the state is untouched; with a record, the
package is downloaded only when a newer version is reported; the record
version is updated to the newer version when there is one and is left
unchanged otherwise; the instance is reconstructed from the fetched record,
afterAdd runs, and the load hook runs exactly when the fetched record was
enabled. -/
theorem C7_upgrade (env : PMEnv) (s : PMState) (name : String) (cls : PluginClassDef)
    (hcls : env.classes name = some cls) (hok : cls.afterAddOk = true) :
    (storeFindOne s name = none →
      upgradeByNpm env s name = (s, [], some (PMError.pluginNotFound name))) ∧
    (∀ rec0, storeFindOne s name = some rec0 →
      (env.newVersion name = none →
        (upgradeByNpm env s name).1.store = s.store ∧
        Ev.pkgDownload name ∉ (upgradeByNpm env s name).2.1 ∧
        Ev.hook name "afterAdd" ∈ (upgradeByNpm env s name).2.1 ∧
        (Ev.hook name "load" ∈ (upgradeByNpm env s name).2.1 ↔ rec0.enabled = true) ∧
        mapGet (upgradeByNpm env s name).1.plugins name =
          some { cls := cls, name := name, enabled := rec0.enabled,
                 builtIn := rec0.builtIn }) ∧
      (∀ v w, env.newVersion name = some v → env.npmResolve name = some w →
        (∃ r2, storeFindOne (upgradeByNpm env s name).1 name = some r2 ∧
           r2.version = some v) ∧
        Ev.pkgDownload name ∈ (upgradeByNpm env s name).2.1 ∧
        Ev.hook name "afterAdd" ∈ (upgradeByNpm env s name).2.1 ∧
        (Ev.hook name "load" ∈ (upgradeByNpm env s name).2.1 ↔ rec0.enabled = true) ∧
        mapGet (upgradeByNpm env s name).1.plugins name =
          some { cls := cls, name := name, enabled := rec0.enabled,
                 builtIn := rec0.builtIn })) := by
  constructor
  · intro hnone
    simp [upgradeByNpm, hnone]
  · intro rec0 hrec
    constructor
    · intro hnv
      have heq : upgradeByNpm env s name = upgradeFinish env s name rec0 none [] := by
        simp [upgradeByNpm, hrec, hnv]
      rw [heq, upgradeFinish_trace env s name rec0 none [] cls hcls hok]
      refine ⟨upgradeFinish_store env s name rec0 [] cls hcls hok, ?_, ?_, ?_,
        upgradeFinish_plugins env s name rec0 none [] cls hcls hok⟩
      · by_cases he : rec0.enabled = true <;> simp [he]
      · by_cases he : rec0.enabled = true <;> simp [he]
      · constructor
        · intro hmem
          by_cases he : rec0.enabled = true
          · exact he
          · rw [if_neg he] at hmem
            simp at hmem
        · intro he
          simp [he]
    · intro v w hnv hres
      have heq : upgradeByNpm env s name
          = upgradeFinish env s name rec0 (some v) [Ev.pkgDownload name] := by
        simp [upgradeByNpm, hrec, hnv, hres]
      rw [heq, upgradeFinish_trace env s name rec0 (some v) [Ev.pkgDownload name] cls hcls hok]
      refine ⟨?_, ?_, ?_, ?_,
        upgradeFinish_plugins env s name rec0 (some v) [Ev.pkgDownload name] cls hcls hok⟩
      · refine ⟨{ rec0 with version := some v }, ?_, rfl⟩
        rw [storeFindOne_congr
          (upgradeFinish env s name rec0 (some v) [Ev.pkgDownload name]).1
          (storeSetVersion s name v) name
          (upgradeFinish_store_v env s name v rec0 [Ev.pkgDownload name] cls hcls hok)
          (upgradeFinish_appName env s name rec0 (some v) [Ev.pkgDownload name] cls hcls hok)]
        exact storeFindOne_setVersion s name v rec0 hrec
      · simp
      · by_cases he : rec0.enabled = true <;> simp [he]
      · constructor
        · intro hmem
          by_cases he : rec0.enabled = true
          · exact he
          · rw [if_neg he] at hmem
            simp at hmem
        · intro he
          simp [he]

/-- C7 witness: upgrading the enabled plugin a at stOn, where a newer
version 2.0.0 is available. -/
theorem C7_witness :
    (∃ r2, storeFindOne (upgradeByNpm envW stOn "a").1 "a" = some r2 ∧
       r2.version = some "2.0.0") ∧
    Ev.pkgDownload "a" ∈ (upgradeByNpm envW stOn "a").2.1 ∧
    Ev.hook "a" "load" ∈ (upgradeByNpm envW stOn "a").2.1 := by
  have h := ((C7_upgrade envW stOn "a" {} (by decide) rfl).2 recOn (by decide)).2
    "2.0.0" "1.0.0" (by decide) (by decide)
  exact ⟨h.1, h.2.1, h.2.2.2.1.mpr (by decide)⟩

/-- C8: the create method always executes in the calling process and its
trace never contains a socket write; every other method is written to the
socket when the connection succeeds, with no local execution, and on
connection failure the client falls back to a local dispatch whose effect
is identical to the server-side handling of the same message; a single-name
command delivered to the server dispatches the lifecycle method exactly
once for that name. -/
theorem C8_control_channel (env : PMEnv) (s : PMState) (msg : Msg) :
    (msg.method = CliMethod.create →
      ∀ conn : Bool, clientWrite env s msg conn =
        ((doCliCommand env s msg.method (msgNames msg.plugins)).1,
         (doCliCommand env s msg.method (msgNames msg.plugins)).2.1) ∧
        hasSock (clientWrite env s msg conn).2 = false) ∧
    (msg.method ≠ CliMethod.create →
      clientWrite env s msg true = (s, [Ev.sockSend msg]) ∧
      clientWrite env s msg false = serverHandle env s msg ∧
      hasSock (serverHandle env s msg).2 = false) ∧
    (∀ n : String, dispatchCount (serverHandle env s (Msg.mk msg.method (Sum.inl n))).2
        msg.method n = 1) := by
  refine ⟨?_, ?_, fun n => serverHandle_dispatch env s msg.method n⟩
  · intro hc conn
    constructor
    · simp [clientWrite, hc]
    · have hs := doCliCommandGo_sock env msg.method (msgNames msg.plugins) s
      simpa [clientWrite, hc, doCliCommand] using hs
  · intro hc
    refine ⟨by simp [clientWrite, hc], by simp [clientWrite, serverHandle, hc], ?_⟩
    have hs := doCliCommandGo_sock env msg.method (msgNames msg.plugins) s
    simpa [serverHandle, doCliCommand] using hs

/-- C8 witness: an enable command for the single name a, against a
listening server and against none. -/
theorem C8_witness :
    clientWrite envW stOn (Msg.mk CliMethod.enable (Sum.inl "a")) true =
      (stOn, [Ev.sockSend (Msg.mk CliMethod.enable (Sum.inl "a"))]) ∧
    clientWrite envW stOn (Msg.mk CliMethod.enable (Sum.inl "a")) false =
      serverHandle envW stOn (Msg.mk CliMethod.enable (Sum.inl "a")) ∧
    hasSock (serverHandle envW stOn (Msg.mk CliMethod.enable (Sum.inl "a"))).2 = false :=
  (C8_control_channel envW stOn (Msg.mk CliMethod.enable (Sum.inl "a"))).2.1 (by decide)

/-- C9: for a fresh name x (no instance, no record), addByNpm with a
resolvable package leaves a record for x with installed true and enabled
false, which the subsequent list returns; moreover every record for x under
this application in the resulting store has enabled false: addByNpm never
sets the enabled flag. -/
theorem C9_add_list_roundtrip (env : PMEnv) (s : PMState) (x : String) (reg : Option String)
    (v : String)
    (hai : mapGet s.plugins x = none)
    (har : storeFindOne s x = none)
    (hres : env.npmResolve x = some v) :
    (∃ r ∈ list (addByNpm env s x reg false false).1,
       r.name = x ∧ r.installed = true ∧ r.enabled = false) ∧
    (∀ r ∈ (addByNpm env s x reg false false).1.store,
       r.name = x → r.appName = s.appName → r.enabled = false) := by
  have har2 : List.find? (fun r : PluginRecord => r.name == x && r.appName == s.appName)
      s.store = none := har
  have hnotin : ∀ a ∈ s.store, (a.name == x && a.appName == s.appName) = false := by
    intro a ha
    have h2 := List.find?_eq_none.mp har2 a ha
    simpa using h2
  have hstore : (addByNpm env s x reg false false).1.store
      = (storeSetInstalled { s with store := s.store ++
          [{ name := x, appName := s.appName, registry := reg, enabled := false,
             isOfficial := false, installed := false, builtIn := false }] }
          x v (env.clientStaticUrl x)).store := by
    rcases hclsx : env.classes x with _ | cls
    · simp [addByNpm, hai, storeCreate, har, hres, setDatabasePlugin, hclsx]
    · by_cases hok : cls.afterAddOk = true <;>
        simp [addByNpm, hai, storeCreate, har, hres, setDatabasePlugin, hclsx, hok]
  have happ : (addByNpm env s x reg false false).1.appName = s.appName := by
    rcases hclsx : env.classes x with _ | cls
    · simp [addByNpm, hai, storeCreate, har, hres, setDatabasePlugin, hclsx,
        storeSetInstalled]
    · by_cases hok : cls.afterAddOk = true <;>
        simp [addByNpm, hai, storeCreate, har, hres, setDatabasePlugin, hclsx, hok,
          storeSetInstalled]
  constructor
  · refine ⟨({ name := x, appName := s.appName, version := some v, registry := reg,
               zipUrl := none, clientUrl := some (env.clientStaticUrl x), enabled := false,
               installed := true, builtIn := false, isOfficial := false } : PluginRecord),
      ?_, rfl, rfl, rfl⟩
    have hle : list (addByNpm env s x reg false false).1
        = ((addByNpm env s x reg false false).1).store.filter
            (fun r => r.appName == (addByNpm env s x reg false false).1.appName) := rfl
    rw [hle, hstore]
    simp only [happ]
    rw [List.mem_filter]
    constructor
    · unfold storeSetInstalled
      dsimp only
      refine List.mem_map.mpr ⟨({ name := x, appName := s.appName, registry := reg,
                                  enabled := false, isOfficial := false, installed := false,
                                  builtIn := false } : PluginRecord), by simp, ?_⟩
      simp
    · simp
  · intro r hr h1 h2
    rw [hstore] at hr
    unfold storeSetInstalled at hr
    dsimp only at hr
    rcases List.mem_map.mp hr with ⟨r0, hr0mem, hupd⟩
    rcases List.mem_append.mp hr0mem with hcase | hcase
    · by_cases hc : r0.name = x ∧ r0.appName = s.appName
      · have h3 := hnotin r0 hcase
        rw [hc.1, hc.2] at h3
        simp at h3
      · rw [if_neg hc] at hupd
        subst hupd
        exact absurd ⟨h1, h2⟩ hc
    · simp only [List.mem_singleton] at hcase
      subst hcase
      rw [if_pos ⟨rfl, rfl⟩] at hupd
      subst hupd
      rfl

/-- C9 witness: adding the fresh plugin x from the empty state. -/
theorem C9_witness :
    ∃ r ∈ list (addByNpm envW stEmpty "x" (some "reg") false false).1,
      r.name = "x" ∧ r.installed = true ∧ r.enabled = false :=
  (C9_add_list_roundtrip envW stEmpty "x" (some "reg") "1.0.0" (by decide) (by decide)
    (by decide)).1

/-- C10: enable never consults the current enabled state: at any registered
plugin whose instance is already enabled (flag true at construction), whose
required plugins all map to enabled instances, whose hooks complete, and
whose matching records are already enabled, a further enable call succeeds
and re-runs the whole sequence (the record update, install, afterEnable,
the afterEnablePlugin event, and the load routine with its load hook),
while the returned state is exactly the input state: idempotent on the
persisted enabled flag, not on hook invocations. -/
theorem C10_reenable (s : PMState) (name : String) (inst : Plugin)
    (h : mapGet s.plugins name = some inst) (hn : inst.name = name)
    (he : inst.enabled = true)
    (hreq : ∀ r ∈ inst.cls.requiredPlugins, ∃ p, mapGet s.plugins r = some p ∧ p.enabled = true)
    (hi : inst.cls.installOk = true) (ha : inst.cls.afterEnableOk = true)
    (hl : inst.cls.loadOk = true)
    (hrec : ∀ r ∈ s.store, r.name = name → r.appName = s.appName → r.enabled = true) :
    enable s name =
      (s, [Ev.recUpdateEnabled name true, Ev.hook name "install", Ev.hook name "afterEnable",
           Ev.emit "afterEnablePlugin" name, Ev.emit "beforeLoadPlugin" name,
           Ev.hook name "load", Ev.emit "afterLoadPlugin" name], none) := by
  have hc : checkRequired s name inst.cls.requiredPlugins = none :=
    checkRequired_eq_none s name inst.cls.requiredPlugins hreq
  rw [enable_eq s name inst h hc hi ha, storeSetEnabled_id s name hrec]
  simp [loadOne, he, hl, hn]

/-- C10 witness: re-enabling the already-enabled concrete plugin a. -/
theorem C10_witness :
    enable stOn "a" =
      (stOn, [Ev.recUpdateEnabled "a" true, Ev.hook "a" "install", Ev.hook "a" "afterEnable",
              Ev.emit "afterEnablePlugin" "a", Ev.emit "beforeLoadPlugin" "a",
              Ev.hook "a" "load", Ev.emit "afterLoadPlugin" "a"], none) :=
  C10_reenable stOn "a" instOn (by decide) rfl rfl (by simp [instOn]) rfl rfl rfl
    (by decide)

end PM
